import Mathlib

/-!
Verification of the template-extraction-and-substitution engine of
SimpleProjectGenerator (src/simple_project_generator/modules/project_generator.py).

Python strings are modelled as `List Char`; the filesystem that
`generate_project` writes into is modelled explicitly as a record of the
directories created and the files written (path, content, mtime) relative to
the output directory.  `str.replace` is modelled by a fuel-based structural
recursion so that concrete runs reduce in the kernel.
-/

namespace SPG

abbrev Str := List Char

def str (s : String) : Str := s.data

/-- `startsList p s` is true when `p` is an initial segment of `s`
(Python `str.startswith`). -/
def startsList : Str → Str → Bool
  | [], _ => true
  | _ :: _, [] => false
  | p :: ps, c :: cs => decide (p = c) && startsList ps cs

/-- `occursIn pat s`: `pat` occurs as a contiguous substring of `s`
(Python `pat in s`).  The empty pattern occurs in every string. -/
def occursIn (pat : Str) : Str → Bool
  | [] => startsList pat []
  | c :: cs => startsList pat (c :: cs) || occursIn pat cs

/-- Boolean membership of a path in a list of paths. -/
def memStr (l : List Str) (p : Str) : Bool := l.any (fun q => decide (q = p))

/-- One pass of Python `s.replace(old, new)` for nonempty `old`: scan left to
right, replacing leftmost non-overlapping occurrences.  `fuel` bounds the
recursion; with `fuel = s.length` the whole string is processed. -/
def replaceFuel (old new : Str) : Nat → Str → Str
  | 0, s => s
  | fuel + 1, s =>
    match s with
    | [] => []
    | c :: cs =>
      if startsList old s = true ∧ old ≠ [] then
        new ++ replaceFuel old new fuel (s.drop old.length)
      else
        c :: replaceFuel old new fuel cs

/-- Python `s.replace(old, new)`.  For the empty pattern Python inserts `new`
before every character and at the end. -/
def pyReplace (s old new : Str) : Str :=
  if old = [] then new ++ s.foldr (fun c acc => c :: (new ++ acc)) []
  else replaceFuel old new s.length s

/-- The replacement loop of `generate_project` (lines 90-91 and 110-111):
`for key, value in replacements.items(): s = s.replace(key, value)`.
The list order models the dict's insertion order. -/
def applyReps (reps : List (Str × Str)) (s : Str) : Str :=
  reps.foldl (fun acc kv => pyReplace acc kv.1 kv.2) s

/-- Scan for the `]` closing a glob character class; returns the class body
and the rest of the pattern. -/
def findClose : Str → Option (Str × Str)
  | [] => none
  | ']' :: rest => some ([], rest)
  | c :: rest =>
    match findClose rest with
    | some (b, r) => some (c :: b, r)
    | none => none

/-- Does a character class body (with `a-z` ranges) match a character? -/
def classMatch : Str → Char → Bool
  | [], _ => false
  | a :: '-' :: b :: rest, c =>
    (decide (a ≤ c) && decide (c ≤ b)) || classMatch rest c
  | a :: rest, c => decide (a = c) || classMatch rest c

/-- Parse the part of a glob pattern following `[`: an optional `!`, a class
body in which a leading `]` is literal, and the closing `]`.  `none` when no
closing `]` exists (then `[` is matched literally, as in `fnmatch`). -/
def classSplit (ps : Str) : Option (Bool × Str × Str) :=
  match ps with
  | '!' :: t =>
    (match t with
     | ']' :: rest =>
       (match findClose rest with
        | some (b, r) => some (true, ']' :: b, r)
        | none => none)
     | _ =>
       (match findClose t with
        | some (b, r) => some (true, b, r)
        | none => none))
  | ']' :: rest =>
    (match findClose rest with
     | some (b, r) => some (false, ']' :: b, r)
     | none => none)
  | _ =>
    (match findClose ps with
     | some (b, r) => some (false, b, r)
     | none => none)

/-- Fuel-bounded glob matching in the style of `fnmatch.fnmatch` (on a POSIX
system `normcase` is the identity): `*` matches any run, `?` one character,
`[...]`/`[!...]` character classes.  Any fuel above
`pattern.length + s.length` is sufficient. -/
def globFuel : Nat → Str → Str → Bool
  | 0, _, _ => false
  | fuel + 1, p, s =>
    match p with
    | [] => s.isEmpty
    | pc :: ps =>
      if pc = '*' then
        globFuel fuel ps s ||
          (match s with
           | [] => false
           | _ :: cs => globFuel fuel (pc :: ps) cs)
      else if pc = '?' then
        (match s with
         | [] => false
         | _ :: cs => globFuel fuel ps cs)
      else if pc = '[' then
        (match classSplit ps with
         | some (neg, body, rest) =>
           (match s with
            | [] => false
            | c :: cs => (neg != classMatch body c) && globFuel fuel rest cs)
         | none =>
           (match s with
            | [] => false
            | c :: cs => decide (c = '[') && globFuel fuel ps cs))
      else
        (match s with
         | [] => false
         | c :: cs => decide (pc = c) && globFuel fuel ps cs)

/-- `fnmatch.fnmatch(s, pattern)`. -/
def globMatch (pattern s : Str) : Bool :=
  globFuel (pattern.length + s.length + 1) pattern s

/-- Lines 102-105: `any(fnmatch.fnmatch(item.name, pattern) for pattern in
replace_extensions)`. -/
def shouldReplace (exts : List Str) (name : Str) : Bool :=
  exts.any (fun pat => globMatch pat name)

/-- Line 72: the default when `replace_extensions` is `None`. -/
def defaultExtensions : List Str := [str "*.py", str "*.md"]

/-- One entry yielded by `template_path.rglob("*")`: its relative path as a
list of components, whether it is a directory, and (for files) its text
content and modification time. -/
structure Entry where
  components : List Str
  isDir : Bool
  content : Str
  mtime : Nat
deriving DecidableEq

/-- `item.name`: the final path component. -/
def entryName (e : Entry) : Str := e.components.getLastD []

/-- `str(relative_path)`: components joined with `/` (POSIX). -/
def pathStr : List Str → Str
  | [] => []
  | c :: rest => rest.foldl (fun acc x => acc ++ '/' :: x) c

/-- Split a path string on `/` into components. -/
def splitSlash : Str → List Str
  | [] => [[]]
  | c :: rest =>
    if c = '/' then [] :: splitSlash rest
    else
      match splitSlash rest with
      | [] => [[c]]
      | g :: gs => (c :: g) :: gs

/-- The proper prefixes of a path (each joined back into a string),
innermost last; these are the directories `mkdir(parents=True)` creates. -/
def ancestorsOf (p : Str) : List Str :=
  (List.range (splitSlash p).length).map (fun i => pathStr ((splitSlash p).take (i + 1)))

/-- The state of the output directory: directories created and files written,
all paths relative to the output root (which exists implicitly). -/
structure OutFS where
  dirs : List Str
  files : List (Str × Str × Nat)
deriving DecidableEq

def emptyFS : OutFS := { dirs := [], files := [] }

/-- Record a directory; creating an existing one is a no-op (`exist_ok=True`).
The empty path is the output root itself, which needs no record. -/
def addDir (fs : OutFS) (d : Str) : OutFS :=
  if d = [] then fs
  else if memStr fs.dirs d then fs
  else { fs with dirs := fs.dirs ++ [d] }

/-- `path.mkdir(parents=True, exist_ok=True)`. -/
def mkdirParents (fs : OutFS) (p : Str) : OutFS :=
  (ancestorsOf p).foldl addDir fs

/-- `path.parent` of a relative path string. -/
def parentOf (p : Str) : Str := pathStr (splitSlash p).dropLast

def setFileList : List (Str × Str × Nat) → Str → Str → Nat → List (Str × Str × Nat)
  | [], p, c, t => [(p, c, t)]
  | (q, c0, t0) :: rest, p, c, t =>
    if q = p then (p, c, t) :: rest else (q, c0, t0) :: setFileList rest p c t

/-- Write a file at a path, replacing any file already there. -/
def setFile (fs : OutFS) (p c : Str) (t : Nat) : OutFS :=
  { fs with files := setFileList fs.files p c t }

def getFile (fs : OutFS) (p : Str) : Option (Str × Nat) :=
  match fs.files.find? (fun e => decide (e.1 = p)) with
  | some e => some e.2
  | none => none

def filePaths (fs : OutFS) : List Str := fs.files.map (fun e => e.1)

/-- `path.exists()` under the output root. -/
def pathExists (fs : OutFS) (p : Str) : Bool :=
  memStr fs.dirs p || memStr (filePaths fs) p

/-- Is `q` equal to `root` or strictly below it? -/
def underPath (root q : Str) : Bool :=
  decide (q = root) || startsList (root ++ ['/']) q

/-- `shutil.rmtree(p)`: remove `p` and everything below it. -/
def rmtreeFS (fs : OutFS) (p : Str) : OutFS :=
  { dirs := fs.dirs.filter (fun d => !underPath p d),
    files := fs.files.filter (fun e => !underPath p e.1) }

/-- Effect of `old.rename(new)` on one recorded path. -/
def renameStr (old new q : Str) : Str :=
  if q = old then new
  else if startsList (old ++ ['/']) q then new ++ q.drop old.length
  else q

/-- `old_path.rename(new_path)` for a directory: every recorded path at or
below `old` moves below `new`. -/
def renamePath (fs : OutFS) (old new : Str) : OutFS :=
  { dirs := fs.dirs.map (renameStr old new),
    files := fs.files.map (fun e => (renameStr old new e.1, e.2)) }

/-- Lines 89-93: the output-relative path of an entry is the string form of
its template-relative path with every replacement applied. -/
def outputRelPath (reps : List (Str × Str)) (e : Entry) : Str :=
  applyReps reps (pathStr e.components)

/-- The body of the `rglob` loop (lines 84-116) for one entry. -/
def materializeEntry (reps : List (Str × Str)) (exts : List Str) (now : Nat)
    (fs : OutFS) (e : Entry) : OutFS :=
  let newRel := outputRelPath reps e
  if e.isDir then
    mkdirParents fs newRel
  else
    let fs1 := mkdirParents fs (parentOf newRel)
    if shouldReplace exts (entryName e) then
      setFile fs1 newRel (applyReps reps e.content) now
    else
      setFile fs1 newRel e.content e.mtime

/-- The whole `rglob` loop over the template's entries, starting from the
fresh output directory. -/
def materializeAll (reps : List (Str × Str)) (exts : List Str) (now : Nat)
    (entries : List Entry) : OutFS :=
  entries.foldl (materializeEntry reps exts now) emptyFS

inductive GenError
  | templateNotFound
  | outputAlreadyExists
  | keyError
  | osError
deriving DecidableEq

/-- Python dict lookup `replacements[k]` modelled on the association list. -/
def lookupRep (reps : List (Str × Str)) (k : Str) : Option Str :=
  match reps.find? (fun kv => decide (kv.1 = k)) with
  | some kv => some kv.2
  | none => none

def moduleToken : Str := str "\x7bMODULE_NAME\x7d"

def oldModulePath : Str := str "src/__MODULE_NAME__"

/-- Lines 118-125: the special-case rename.  `replacements["{MODULE_NAME}"]`
is evaluated unconditionally, so a missing key raises before any `exists`
check.  The degenerate cases in which the POSIX rename itself fails (renaming
a directory onto itself after the destination was removed, into its own
subtree, or onto a plain file via `rmtree`) surface as `osError`. -/
def renameStep (reps : List (Str × Str)) (fs : OutFS) : Option OutFS × Option GenError :=
  match lookupRep reps moduleToken with
  | none => (some fs, some GenError.keyError)
  | some m =>
    let newModulePath := str "src/" ++ m
    if pathExists fs oldModulePath then
      if startsList (oldModulePath ++ ['/']) newModulePath then
        (some fs, some GenError.osError)
      else if pathExists fs newModulePath then
        if memStr fs.dirs newModulePath then
          let fs1 := rmtreeFS fs newModulePath
          if pathExists fs1 oldModulePath then
            (some (renamePath fs1 oldModulePath newModulePath), none)
          else
            (some fs1, some GenError.osError)
        else
          (some fs, some GenError.osError)
      else
        (some (renamePath fs oldModulePath newModulePath), none)
    else
      (some fs, none)

/-- `generate_project` (lines 52-127).  `template` is `none` when the
template directory does not exist, otherwise the list of entries `rglob`
yields.  `preOutput` is the prior state of the output directory (`none` when
absent).  The result is the final state of the output directory together with
the raised error, if any. -/
def generate_project (template : Option (List Entry)) (preOutput : Option OutFS)
    (replacements : List (Str × Str)) (replace_extensions : Option (List Str))
    (overwrite : Bool) (now : Nat) : Option OutFS × Option GenError :=
  match template with
  | none => (preOutput, some GenError.templateNotFound)
  | some entries =>
    match preOutput, overwrite with
    | some fs0, false => (some fs0, some GenError.outputAlreadyExists)
    | _, _ =>
      renameStep replacements
        (materializeAll replacements (replace_extensions.getD defaultExtensions) now entries)

/-- The world `extract_zip_to_temp` runs in: which of its effectful steps
succeed, and the fresh temporary directory's name. -/
structure ZipEnv where
  mkdtempOk : Bool
  tempDir : Str
  fetchOk : Bool
  localExists : Bool
  isZipFile : Bool
  extractOk : Bool
  unlinkOk : Bool
deriving DecidableEq

/-- Line 26: `source.startswith(("http://", "https://"))`. -/
def isUrl (source : Str) : Bool :=
  startsList (str "http://") source || startsList (str "https://") source

/-- `extract_zip_to_temp` (lines 12-49).  The surrounding `try` turns every
exception (from `mkdtemp`, `urlretrieve`, `extractall`, `unlink`) into
`None`; the explicit early returns cover the missing-path and not-a-zip
cases.  Totality of this function models "never raises". -/
def extract_zip_to_temp (source : Str) (env : ZipEnv) : Option Str :=
  if !env.mkdtempOk then none
  else if isUrl source then
    if !env.fetchOk then none
    else if !env.isZipFile then none
    else if !env.extractOk then none
    else if !env.unlinkOk then none
    else some env.tempDir
  else
    if !env.localExists then none
    else if !env.isZipFile then none
    else if !env.extractOk then none
    else some env.tempDir

/-- Modelled from the spec (section 4.1 error policy): staging succeeds
exactly when every step the given source exercises succeeds.  This is the
spec-side description the code's behaviour is compared against. -/
def stagingSucceedsSpec (source : Str) (env : ZipEnv) : Bool :=
  env.mkdtempOk && env.isZipFile && env.extractOk &&
    (if isUrl source then env.fetchOk && env.unlinkOk else env.localExists)

end SPG

namespace SPG

theorem files_addDir (fs : OutFS) (d : Str) : (addDir fs d).files = fs.files := by
  unfold addDir
  by_cases h1 : d = []
  · simp [h1]
  · by_cases h2 : memStr fs.dirs d = true
    · simp [h1, h2]
    · simp [h1, h2]

theorem files_foldl_addDir (l : List Str) (fs : OutFS) :
    (l.foldl addDir fs).files = fs.files := by
  induction l generalizing fs with
  | nil => rfl
  | cons d rest ih => simp only [List.foldl_cons]; rw [ih, files_addDir]

theorem files_mkdirParents (fs : OutFS) (p : Str) :
    (mkdirParents fs p).files = fs.files :=
  files_foldl_addDir _ _

theorem filePaths_mkdirParents (fs : OutFS) (p : Str) :
    filePaths (mkdirParents fs p) = filePaths fs := by
  unfold filePaths; rw [files_mkdirParents]

theorem dirs_setFile (fs : OutFS) (p c : Str) (t : Nat) :
    (setFile fs p c t).dirs = fs.dirs := rfl

theorem map_fst_setFileList (l : List (Str × Str × Nat)) (p c : Str) (t : Nat) :
    (setFileList l p c t).map (fun e => e.1) =
      (if memStr (l.map (fun e => e.1)) p then l.map (fun e => e.1)
       else l.map (fun e => e.1) ++ [p]) := by
  induction l with
  | nil => simp [setFileList, memStr]
  | cons hd rest ih =>
    obtain ⟨q, c0, t0⟩ := hd
    by_cases h : q = p
    · subst h; simp [setFileList, memStr]
    · simp only [setFileList, if_neg h, List.map_cons, memStr, List.any_cons, ih]
      by_cases h2 : memStr (rest.map (fun e => e.1)) p = true
      · simp [memStr] at h2
        simp [h, h2, memStr]
      · simp [memStr] at h2
        simp [h, h2, memStr]

theorem filePaths_setFile (fs : OutFS) (p c : Str) (t : Nat) :
    filePaths (setFile fs p c t) =
      (if memStr (filePaths fs) p then filePaths fs else filePaths fs ++ [p]) :=
  map_fst_setFileList fs.files p c t

theorem find?_setFileList_self (l : List (Str × Str × Nat)) (p c : Str) (t : Nat) :
    (setFileList l p c t).find? (fun e => decide (e.1 = p)) = some (p, c, t) := by
  induction l with
  | nil => simp [setFileList]
  | cons hd rest ih =>
    obtain ⟨q, c0, t0⟩ := hd
    by_cases h : q = p
    · subst h; simp [setFileList]
    · simp [setFileList, h, ih]

theorem getFile_setFile_self (fs : OutFS) (p c : Str) (t : Nat) :
    getFile (setFile fs p c t) p = some (c, t) := by
  unfold getFile setFile
  simp only [find?_setFileList_self]

/-- Shared copy-branch fact: a file whose name matches no pattern lands at
its substituted path with its original content and mtime. -/
theorem getFile_materialize_copy (reps : List (Str × Str)) (exts : List Str)
    (now : Nat) (fs : OutFS) (e : Entry) (hf : e.isDir = false)
    (he : shouldReplace exts (entryName e) = false) :
    getFile (materializeEntry reps exts now fs e) (outputRelPath reps e)
      = some (e.content, e.mtime) := by
  unfold materializeEntry
  simp [hf, he, getFile_setFile_self]

end SPG

namespace SPG

/-- C1: every template entry (file or directory) is materialized at exactly
one output path, namely the string form of its template-relative path with
every (token, value) pair applied as a literal substring replacement, and
this path does not depend on whether the entry's content is substituted or
copied (the pattern list and the write clock never change which paths the
step touches).  A directory entry is created, with its parents, exactly at
the substituted path; a file entry's recorded path is exactly the
substituted path. -/
theorem unique_substituted_output_path (reps : List (Str × Str))
    (exts exts' : List Str) (now now' : Nat) (fs : OutFS) (e : Entry) :
    (materializeEntry reps exts now fs e).dirs
        = (materializeEntry reps exts' now' fs e).dirs
    ∧ filePaths (materializeEntry reps exts now fs e)
        = filePaths (materializeEntry reps exts' now' fs e)
    ∧ (if e.isDir then
         materializeEntry reps exts now fs e
           = mkdirParents fs (applyReps reps (pathStr e.components))
       else
         filePaths (materializeEntry reps exts now fs e) =
           (if memStr (filePaths fs) (applyReps reps (pathStr e.components))
            then filePaths fs
            else filePaths fs ++ [applyReps reps (pathStr e.components)])) := by
  unfold materializeEntry
  cases hd : e.isDir
  · simp only [hd, Bool.false_eq_true, if_false]
    by_cases h1 : shouldReplace exts (entryName e) = true
    · by_cases h2 : shouldReplace exts' (entryName e) = true
      · simp [h1, h2, filePaths_setFile, filePaths_mkdirParents, dirs_setFile, outputRelPath]
      · simp [h1, h2, filePaths_setFile, filePaths_mkdirParents, dirs_setFile, outputRelPath]
    · by_cases h2 : shouldReplace exts' (entryName e) = true
      · simp [h1, h2, filePaths_setFile, filePaths_mkdirParents, dirs_setFile, outputRelPath]
      · simp [h1, h2, filePaths_setFile, filePaths_mkdirParents, dirs_setFile, outputRelPath]
  · simp [hd, outputRelPath]

/-- C2 (amended): for a file matching one of the patterns, the content
written at the substituted path is the input text with the (token, value)
pairs applied sequentially in mapping order, each pass replacing the
leftmost non-overlapping occurrences present at that point. -/
theorem eligible_content_substituted (reps : List (Str × Str)) (exts : List Str)
    (now : Nat) (fs : OutFS) (e : Entry) (hf : e.isDir = false)
    (he : shouldReplace exts (entryName e) = true) :
    getFile (materializeEntry reps exts now fs e) (outputRelPath reps e)
      = some (applyReps reps e.content, now) := by
  unfold materializeEntry
  simp [hf, he, getFile_setFile_self]

/-- C2 witness: a template file `f.py` whose content `hi` holds no token is
written substituted (trivially unchanged) with the write-time mtime. -/
theorem eligible_content_substituted_witness :
    (⟨[str "f.py"], false, str "hi", 9⟩ : Entry).isDir = false
    ∧ shouldReplace defaultExtensions (entryName ⟨[str "f.py"], false, str "hi", 9⟩) = true
    ∧ getFile
        (materializeEntry [(str "T", str "v")] defaultExtensions 3 emptyFS
          ⟨[str "f.py"], false, str "hi", 9⟩)
        (outputRelPath [(str "T", str "v")] ⟨[str "f.py"], false, str "hi", 9⟩)
        = some (applyReps [(str "T", str "v")] (str "hi"), 3) :=
  ⟨by decide, by decide,
    eligible_content_substituted [(str "T", str "v")] defaultExtensions 3 emptyFS
      ⟨[str "f.py"], false, str "hi", 9⟩ (by decide) (by decide)⟩

/-- C2 counterexample: with replacements `ab ↦ Z` then `xy ↦ b` (dict
order), the eligible file `f.py` with content `axy` is written as `ab`: the
token `ab` occurs in the output although it is not a substring of either
replacement value — it is formed at the junction of original text and an
inserted value, refuting the claim's completeness clause. -/
theorem token_reintroduced_counterexample :
    getFile
      (materializeEntry [(str "ab", str "Z"), (str "xy", str "b")]
        defaultExtensions 0 emptyFS ⟨[str "f.py"], false, str "axy", 5⟩)
      (outputRelPath [(str "ab", str "Z"), (str "xy", str "b")]
        ⟨[str "f.py"], false, str "axy", 5⟩)
      = some (str "ab", 0)
    ∧ occursIn (str "ab") (str "ab") = true
    ∧ occursIn (str "ab") (str "Z") = false
    ∧ occursIn (str "ab") (str "b") = false := by
  decide

/-- C3: with a pre-existing output directory, `overwrite=true` removes it
before materializing — the run is indistinguishable from one where the
output directory never existed — while `overwrite=false` fails with the
already-exists error and leaves the pre-existing directory untouched,
writing nothing from the template. -/
theorem overwrite_semantics (es : List Entry) (fs0 : OutFS)
    (reps : List (Str × Str)) (re : Option (List Str)) (now : Nat) :
    generate_project (some es) (some fs0) reps re true now
        = generate_project (some es) none reps re true now
    ∧ generate_project (some es) (some fs0) reps re false now
        = (some fs0, some GenError.outputAlreadyExists) :=
  ⟨rfl, rfl⟩

/-- C4: `extract_zip_to_temp` is a total function into an optional result
(the enclosing try/except turns every exception into `None`), and for every
source and environment it returns the staged directory exactly when all the
steps it exercises succeed, and `None` otherwise — every failure mode
(missing local path, not a zip, corrupt archive, fetch failure) collapses to
the same absent result. -/
theorem staging_failure_collapses (source : Str) (env : ZipEnv) :
    extract_zip_to_temp source env
      = (if stagingSucceedsSpec source env then some env.tempDir else none) := by
  obtain ⟨mk, td, f, l, z, ex, u⟩ := env
  cases hu : isUrl source <;> cases mk <;> cases f <;> cases l <;>
    cases z <;> cases ex <;> cases u <;>
      simp [extract_zip_to_temp, stagingSucceedsSpec, hu]

/-- C6: when the replacement mapping has no `\x7bMODULE_NAME\x7d` key, the
rename step's dict lookup raises, and that lookup error is the call's
outcome. -/
theorem missing_module_token_fatal (es : List Entry) (reps : List (Str × Str))
    (re : Option (List Str)) (ow : Bool) (now : Nat)
    (h : lookupRep reps moduleToken = none) :
    (generate_project (some es) none reps re ow now).2 = some GenError.keyError := by
  cases ow <;> (unfold generate_project renameStep; rw [h])

/-- C6 witness: a call with an empty replacement mapping ends in the lookup
error. -/
theorem missing_module_token_fatal_witness :
    lookupRep [] moduleToken = none
    ∧ (generate_project (some [⟨[str "a.md"], false, str "x", 0⟩]) none [] none
        false 0).2 = some GenError.keyError :=
  ⟨by decide,
    missing_module_token_fatal [⟨[str "a.md"], false, str "x", 0⟩] [] none false 0
      (by decide)⟩

/-- C7 counterexample: with no `\x7bMODULE_NAME\x7d` key and a template
containing no `src/__MODULE_NAME__` directory at all, the call still fails
with the lookup error — the rename step is not skipped and the call does not
complete without error, refuting the claim. -/
theorem rename_step_not_skipped_counterexample :
    (generate_project (some [⟨[str "a.txt"], false, str "x", 0⟩]) none [] none
        false 0).2 = some GenError.keyError
    ∧ ¬ (generate_project (some [⟨[str "a.txt"], false, str "x", 0⟩]) none []
        none false 0).2 = none := by
  decide

/-- C7 (amended): when the replacement mapping lacks the
`\x7bMODULE_NAME\x7d` key the call does not skip the rename step: the whole
tree is materialized and the call then fails with the lookup error. -/
theorem missing_module_token_after_materialize (es : List Entry)
    (reps : List (Str × Str)) (re : Option (List Str)) (ow : Bool) (now : Nat)
    (h : lookupRep reps moduleToken = none) :
    generate_project (some es) none reps re ow now
      = (some (materializeAll reps (re.getD defaultExtensions) now es),
         some GenError.keyError) := by
  cases ow <;> (unfold generate_project renameStep; rw [h])

/-- C7 amended-theorem witness: concrete instance of the non-skipped rename
step. -/
theorem missing_module_token_after_materialize_witness :
    lookupRep [] moduleToken = none
    ∧ generate_project (some [⟨[str "b.txt"], false, str "y", 1⟩]) none [] none
        false 0
      = (some (materializeAll [] defaultExtensions 0
          [⟨[str "b.txt"], false, str "y", 1⟩]), some GenError.keyError) :=
  ⟨by decide,
    missing_module_token_after_materialize [⟨[str "b.txt"], false, str "y", 1⟩]
      [] none false 0 (by decide)⟩

/-- C8: a file whose name matches no glob pattern is copied: its bytes at
the substituted output path equal the input bytes and its modification time
is preserved. -/
theorem ineligible_file_copied (reps : List (Str × Str)) (exts : List Str)
    (now : Nat) (fs : OutFS) (e : Entry) (hf : e.isDir = false)
    (he : shouldReplace exts (entryName e) = false) :
    getFile (materializeEntry reps exts now fs e) (outputRelPath reps e)
      = some (e.content, e.mtime) :=
  getFile_materialize_copy reps exts now fs e hf he

/-- C8 witness: a `data.bin` file matches neither `*.py` nor `*.md` and is
copied with content and mtime intact. -/
theorem ineligible_file_copied_witness :
    (⟨[str "data.bin"], false, str "bytes", 42⟩ : Entry).isDir = false
    ∧ shouldReplace defaultExtensions
        (entryName ⟨[str "data.bin"], false, str "bytes", 42⟩) = false
    ∧ getFile
        (materializeEntry [(str "T", str "v")] defaultExtensions 0 emptyFS
          ⟨[str "data.bin"], false, str "bytes", 42⟩)
        (outputRelPath [(str "T", str "v")] ⟨[str "data.bin"], false, str "bytes", 42⟩)
        = some (str "bytes", 42) :=
  ⟨by decide, by decide,
    ineligible_file_copied [(str "T", str "v")] defaultExtensions 0 emptyFS
      ⟨[str "data.bin"], false, str "bytes", 42⟩ (by decide) (by decide)⟩

end SPG

namespace SPG

theorem occursIn_nil_pat (s : Str) : occursIn [] s = true := by
  cases s <;> simp [occursIn, startsList]

theorem replaceFuel_not_occurs (old new : Str) (fuel : Nat) (s : Str)
    (h : occursIn old s = false) : replaceFuel old new fuel s = s := by
  induction fuel generalizing s with
  | zero => rfl
  | succ f ih =>
    cases s with
    | nil => rfl
    | cons c cs =>
      have h2 : (startsList old (c :: cs) || occursIn old cs) = false := h
      rw [Bool.or_eq_false_iff] at h2
      show (if startsList old (c :: cs) = true ∧ old ≠ [] then
              new ++ replaceFuel old new f ((c :: cs).drop old.length)
            else c :: replaceFuel old new f cs) = c :: cs
      rw [if_neg (fun hc => by simp [h2.1] at hc)]
      rw [ih cs h2.2]

theorem pyReplace_not_occurs (s old new : Str) (h : occursIn old s = false) :
    pyReplace s old new = s := by
  unfold pyReplace
  by_cases h0 : old = []
  · rw [h0, occursIn_nil_pat] at h; simp at h
  · rw [if_neg h0, replaceFuel_not_occurs old new s.length s h]

theorem applyReps_fixed (reps : List (Str × Str)) (t : Str)
    (h : ∀ kv ∈ reps, occursIn kv.1 t = false) : applyReps reps t = t := by
  induction reps with
  | nil => rfl
  | cons kv rest ih =>
    unfold applyReps
    rw [List.foldl_cons, pyReplace_not_occurs t kv.1 kv.2 (h kv (List.mem_cons_self _ _))]
    exact ih (fun kv2 h2 => h kv2 (List.mem_cons_of_mem _ h2))

/-- C9: for a replacement mapping whose tokens are pairwise distinct and not
prefixes of one another, if the first substitution pass already removed
every token occurrence from a path string, then applying the substitution a
second time changes nothing. -/
theorem path_substitution_idempotent (reps : List (Str × Str)) (s : Str)
    (_hdisj : reps.Pairwise
      (fun a b => a.1 ≠ b.1 ∧ startsList a.1 b.1 = false ∧ startsList b.1 a.1 = false))
    (hclean : ∀ kv ∈ reps, occursIn kv.1 (applyReps reps s) = false) :
    applyReps reps (applyReps reps s) = applyReps reps s :=
  applyReps_fixed reps (applyReps reps s) hclean

/-- C9 witness: two disjoint tokens, a path whose first pass leaves no token
occurrence, and the resulting idempotence. -/
theorem path_substitution_idempotent_witness :
    ([(str "T1", str "x"), (str "T2", str "y")] : List (Str × Str)).Pairwise
      (fun a b => a.1 ≠ b.1 ∧ startsList a.1 b.1 = false ∧ startsList b.1 a.1 = false)
    ∧ (∀ kv ∈ ([(str "T1", str "x"), (str "T2", str "y")] : List (Str × Str)),
        occursIn kv.1 (applyReps [(str "T1", str "x"), (str "T2", str "y")] (str "aT1b")) = false)
    ∧ applyReps [(str "T1", str "x"), (str "T2", str "y")]
        (applyReps [(str "T1", str "x"), (str "T2", str "y")] (str "aT1b"))
      = applyReps [(str "T1", str "x"), (str "T2", str "y")] (str "aT1b") :=
  ⟨by decide, by decide,
    path_substitution_idempotent [(str "T1", str "x"), (str "T2", str "y")]
      (str "aT1b") (by decide) (by decide)⟩

end SPG

namespace SPG

theorem globFuel_lit_nil (f : Nat) (pc : Char) (ps : Str)
    (h1 : pc ≠ '*') (h2 : pc ≠ '?') (h3 : pc ≠ '[') :
    globFuel (f + 1) (pc :: ps) [] = false := by
  simp [globFuel, h1, h2, h3]

theorem globFuel_lit_cons (f : Nat) (pc : Char) (ps : Str) (c : Char) (cs : Str)
    (h1 : pc ≠ '*') (h2 : pc ≠ '?') (h3 : pc ≠ '[') :
    globFuel (f + 1) (pc :: ps) (c :: cs)
      = (decide (pc = c) && globFuel f ps cs) := by
  simp [globFuel, h1, h2, h3]

theorem globFuel_star_nil (f : Nat) (ps : Str) :
    globFuel (f + 1) ('*' :: ps) [] = globFuel f ps [] := by
  simp [globFuel]

theorem globFuel_star_cons (f : Nat) (ps : Str) (c : Char) (cs : Str) :
    globFuel (f + 1) ('*' :: ps) (c :: cs)
      = (globFuel f ps (c :: cs) || globFuel f ('*' :: ps) cs) := by
  simp [globFuel]

theorem globFuel_literal_only (pat : Str)
    (hlit : ∀ c ∈ pat, c ≠ '*' ∧ c ≠ '?' ∧ c ≠ '[') :
    ∀ (fuel : Nat) (t : Str), globFuel fuel pat t = true → t = pat := by
  induction pat with
  | nil =>
    intro fuel t h
    cases fuel with
    | zero => simp [globFuel] at h
    | succ f =>
      cases t with
      | nil => rfl
      | cons a b => simp [globFuel] at h
  | cons pc ps ih =>
    intro fuel t h
    obtain ⟨h1, h2, h3⟩ := hlit pc (List.mem_cons_self _ _)
    cases fuel with
    | zero => simp [globFuel] at h
    | succ f =>
      cases t with
      | nil => rw [globFuel_lit_nil f pc ps h1 h2 h3] at h; exact absurd h (by simp)
      | cons c cs =>
        rw [globFuel_lit_cons f pc ps c cs h1 h2 h3] at h
        simp only [Bool.and_eq_true, decide_eq_true_eq] at h
        obtain ⟨hpc, hrec⟩ := h
        rw [ih (fun x hx => hlit x (List.mem_cons_of_mem _ hx)) f cs hrec, hpc]

theorem globFuel_star_literal (pat : Str)
    (hlit : ∀ c ∈ pat, c ≠ '*' ∧ c ≠ '?' ∧ c ≠ '[') :
    ∀ (fuel : Nat) (s : Str), globFuel fuel ('*' :: pat) s = true → pat <:+ s := by
  intro fuel
  induction fuel with
  | zero => intro s h; simp [globFuel] at h
  | succ f ih =>
    intro s h
    cases s with
    | nil =>
      rw [globFuel_star_nil f pat] at h
      have h2 := globFuel_literal_only pat hlit f [] h
      rw [← h2]
    | cons c cs =>
      rw [globFuel_star_cons f pat c cs] at h
      rcases Bool.or_eq_true_iff.mp h with hl | hr
      · rw [globFuel_literal_only pat hlit f (c :: cs) hl]
      · exact (ih cs hr).trans (List.suffix_cons c cs)

theorem suffix_eq_of_length {l1 l2 s : Str} (h1 : l1 <:+ s) (h2 : l2 <:+ s)
    (hl : l1.length = l2.length) : l1 = l2 := by
  obtain ⟨p1, hp1⟩ := h1
  obtain ⟨p2, hp2⟩ := h2
  exact (List.append_inj' (hp1.trans hp2.symm) hl).2

/-- A name ending in `.sh` matches neither default pattern. -/
theorem sh_name_not_replaced (name : Str) (hs : str ".sh" <:+ name) :
    shouldReplace defaultExtensions name = false := by
  have hpy : globMatch (str "*.py") name = false := by
    cases hb : globMatch (str "*.py") name
    · rfl
    · exfalso
      have hb2 : globFuel ((str "*.py").length + name.length + 1)
          ('*' :: str ".py") name = true := hb
      have hsuf : str ".py" <:+ name :=
        globFuel_star_literal (str ".py") (by decide) _ name hb2
      exact absurd (suffix_eq_of_length hsuf hs (by decide)) (by decide)
  have hmd : globMatch (str "*.md") name = false := by
    cases hb : globMatch (str "*.md") name
    · rfl
    · exfalso
      have hb2 : globFuel ((str "*.md").length + name.length + 1)
          ('*' :: str ".md") name = true := hb
      have hsuf : str ".md" <:+ name :=
        globFuel_star_literal (str ".md") (by decide) _ name hb2
      exact absurd (suffix_eq_of_length hsuf hs (by decide)) (by decide)
  simp [shouldReplace, defaultExtensions, hpy, hmd]

/-- C10: a call without a `replace_extensions` argument behaves exactly as
one passing `["*.py", "*.md"]`, and under that default any file whose name
ends in `.sh` is copied byte-for-byte with its mtime preserved, not
content-substituted. -/
theorem default_replace_extensions :
    (∀ (template : Option (List Entry)) (preOutput : Option OutFS)
        (reps : List (Str × Str)) (ow : Bool) (now : Nat),
      generate_project template preOutput reps none ow now
        = generate_project template preOutput reps (some defaultExtensions) ow now)
    ∧ (∀ (reps : List (Str × Str)) (now : Nat) (fs : OutFS) (e : Entry),
        e.isDir = false → str ".sh" <:+ entryName e →
        getFile (materializeEntry reps defaultExtensions now fs e)
            (outputRelPath reps e)
          = some (e.content, e.mtime)) := by
  constructor
  · intro template preOutput reps ow now
    cases template <;> rfl
  · intro reps now fs e hf hs
    exact getFile_materialize_copy reps defaultExtensions now fs e hf
      (sh_name_not_replaced (entryName e) hs)

/-- C10 witness: a `run.sh` file under the default patterns is copied with
content and mtime intact. -/
theorem default_replace_extensions_witness :
    (⟨[str "run.sh"], false, str "echo T", 3⟩ : Entry).isDir = false
    ∧ str ".sh" <:+ entryName ⟨[str "run.sh"], false, str "echo T", 3⟩
    ∧ getFile
        (materializeEntry [(str "T", str "v")] defaultExtensions 0 emptyFS
          ⟨[str "run.sh"], false, str "echo T", 3⟩)
        (outputRelPath [(str "T", str "v")] ⟨[str "run.sh"], false, str "echo T", 3⟩)
        = some (str "echo T", 3) :=
  ⟨by decide, by decide,
    default_replace_extensions.2 [(str "T", str "v")] 0 emptyFS
      ⟨[str "run.sh"], false, str "echo T", 3⟩ (by decide) (by decide)⟩

end SPG

namespace SPG

theorem startsList_append_same (l p q : Str) :
    startsList (l ++ p) (l ++ q) = startsList p q := by
  induction l with
  | nil => rfl
  | cons a rest ih => simp [startsList, ih]

theorem mem_of_startsList (p q : Str) (h : startsList p q = true) :
    ∀ {c : Char}, c ∈ p → c ∈ q := by
  induction p generalizing q with
  | nil => intro c hc; simp at hc
  | cons a ps ih =>
    cases q with
    | nil => simp [startsList] at h
    | cons b bs =>
      simp only [startsList, Bool.and_eq_true, decide_eq_true_eq] at h
      intro c hc
      rcases List.mem_cons.mp hc with hc | hc
      · rw [hc, ← h.1]; exact List.mem_cons_self _ _
      · exact List.mem_cons_of_mem _ (ih bs h.2 hc)

theorem startsList_exists (p q : Str) (h : startsList p q = true) :
    ∃ r, q = p ++ r := by
  induction p generalizing q with
  | nil => exact ⟨q, rfl⟩
  | cons a ps ih =>
    cases q with
    | nil => simp [startsList] at h
    | cons b bs =>
      simp only [startsList, Bool.and_eq_true, decide_eq_true_eq] at h
      obtain ⟨r, hr⟩ := ih bs h.2
      exact ⟨r, by rw [List.cons_append, ← h.1, hr]⟩

theorem oldSplit : oldModulePath = str "src/" ++ str "__MODULE_NAME__" := by decide

theorem new_ne_old (m : Str) (hm1 : m ≠ str "__MODULE_NAME__") :
    str "src/" ++ m ≠ oldModulePath := by
  intro h
  rw [oldSplit] at h
  exact hm1 (List.append_cancel_left h)

theorem not_under_guard (m : Str) (hm2 : '/' ∉ m) :
    startsList (oldModulePath ++ ['/']) (str "src/" ++ m) = false := by
  cases hb : startsList (oldModulePath ++ ['/']) (str "src/" ++ m)
  · rfl
  · exfalso
    rw [oldSplit, List.append_assoc, startsList_append_same] at hb
    have : ('/' : Char) ∈ m :=
      mem_of_startsList _ _ hb
        (List.mem_append.mpr (Or.inr (List.mem_singleton.mpr rfl)))
    exact hm2 this

theorem old_not_under_new (m : Str) (hm1 : m ≠ str "__MODULE_NAME__") :
    underPath (str "src/" ++ m) oldModulePath = false := by
  unfold underPath
  rw [Bool.or_eq_false_iff]
  constructor
  · simp [Ne.symm (new_ne_old m hm1)]
  · cases hb : startsList ((str "src/" ++ m) ++ ['/']) oldModulePath
    · rfl
    · exfalso
      rw [List.append_assoc, oldSplit, startsList_append_same] at hb
      obtain ⟨r, hr⟩ := startsList_exists _ _ hb
      have : ('/' : Char) ∈ str "__MODULE_NAME__" := by
        rw [hr]
        exact List.mem_append.mpr
          (Or.inl (List.mem_append.mpr (Or.inr (List.mem_singleton.mpr rfl))))
      exact absurd this (by decide)

theorem renameStr_ne_old (m : Str) (hm1 : m ≠ str "__MODULE_NAME__")
    (q : Str) :
    renameStr oldModulePath (str "src/" ++ m) q ≠ oldModulePath := by
  intro h
  unfold renameStr at h
  by_cases hq1 : q = oldModulePath
  · rw [if_pos hq1] at h
    exact new_ne_old m hm1 h
  · rw [if_neg hq1] at h
    by_cases hq2 : startsList (oldModulePath ++ ['/']) q = true
    · rw [if_pos hq2] at h
      obtain ⟨r, hr⟩ := startsList_exists _ _ hq2
      rw [List.append_assoc] at hr
      rw [hr, List.drop_left] at h
      rw [oldSplit] at h
      simp only [List.append_assoc, List.singleton_append] at h
      have h2 := List.append_cancel_left h
      have : ('/' : Char) ∈ str "__MODULE_NAME__" := by
        rw [← h2]
        exact List.mem_append.mpr (Or.inr (List.mem_cons_self _ _))
      exact absurd this (by decide)
    · rw [if_neg hq2] at h
      exact hq1 h

theorem memStr_map_ne (f : Str → Str) (p : Str) (hf : ∀ q, f q ≠ p)
    (l : List Str) : memStr (l.map f) p = false := by
  unfold memStr
  rw [List.any_map, List.any_eq_false]
  intro x _
  simp [hf x]

theorem filePaths_renamePath (fs : OutFS) (old new : Str) :
    filePaths (renamePath fs old new) = (filePaths fs).map (renameStr old new) := by
  simp [filePaths, renamePath, List.map_map]

theorem pathExists_renamePath_old (m : Str) (hm1 : m ≠ str "__MODULE_NAME__")
    (fs : OutFS) :
    pathExists (renamePath fs oldModulePath (str "src/" ++ m)) oldModulePath = false := by
  have hd : memStr ((renamePath fs oldModulePath (str "src/" ++ m)).dirs)
      oldModulePath = false :=
    memStr_map_ne _ _ (renameStr_ne_old m hm1) fs.dirs
  have hf : memStr (filePaths (renamePath fs oldModulePath (str "src/" ++ m)))
      oldModulePath = false := by
    rw [filePaths_renamePath]
    exact memStr_map_ne _ _ (renameStr_ne_old m hm1) (filePaths fs)
  unfold pathExists
  rw [hd, hf]
  rfl

theorem memStr_filter_keep (pred : Str → Bool) (p : Str) (l : List Str)
    (hmem : memStr l p = true) (hp : pred p = true) :
    memStr (l.filter pred) p = true := by
  induction l with
  | nil => simp [memStr] at hmem
  | cons a rest ih =>
    simp only [memStr, List.any_cons, Bool.or_eq_true_iff, decide_eq_true_eq] at hmem
    rcases hmem with ha | hrest
    · subst ha
      simp [List.filter_cons, hp, memStr]
    · cases hb : pred a
      · simp only [List.filter_cons, hb, Bool.false_eq_true, if_false]
        exact ih hrest
      · simp only [List.filter_cons, hb, if_true]
        simp only [memStr, List.any_cons, Bool.or_eq_true_iff]
        exact Or.inr (ih hrest)

theorem map_fst_filter_fst (pred : Str → Bool) (l : List (Str × Str × Nat)) :
    (l.filter (fun e => pred e.1)).map (fun e => e.1)
      = (l.map (fun e => e.1)).filter pred := by
  induction l with
  | nil => rfl
  | cons a rest ih => cases hb : pred a.1 <;> simp [List.filter_cons, hb, ih]

theorem filePaths_rmtree (fs : OutFS) (p : Str) :
    filePaths (rmtreeFS fs p) = (filePaths fs).filter (fun q => !underPath p q) :=
  map_fst_filter_fst (fun q => !underPath p q) fs.files

theorem pathExists_rmtree_keep (fs : OutFS) (root p : Str)
    (hu : underPath root p = false) (he : pathExists fs p = true) :
    pathExists (rmtreeFS fs root) p = true := by
  unfold pathExists at he ⊢
  rw [Bool.or_eq_true_iff]
  rcases Bool.or_eq_true_iff.mp he with h | h
  · exact Or.inl (memStr_filter_keep (fun d => !underPath root d) p fs.dirs h
      (by simp [hu]))
  · refine Or.inr ?_
    rw [filePaths_rmtree]
    exact memStr_filter_keep (fun q => !underPath root q) p (filePaths fs) h
      (by simp [hu])

end SPG

namespace SPG

/-- C5: when the whole tree has been materialized and a directory literally
named `__MODULE_NAME__` exists at `src/` under the output, the call renames
it to the directory named after the resolved `\x7bMODULE_NAME\x7d` value,
removing a pre-existing destination directory of that name first, and no
`src/__MODULE_NAME__` entry remains.  The hypotheses `hm1`/`hm2` record that
the resolved value is a genuine module name (not the literal placeholder and
slash-free), and `hdst` that a pre-existing destination, if any, is a
directory. -/
theorem module_placeholder_renamed (es : List Entry) (reps : List (Str × Str))
    (re : Option (List Str)) (ow : Bool) (now : Nat) (m : Str)
    (hm : lookupRep reps moduleToken = some m)
    (hm1 : m ≠ str "__MODULE_NAME__") (hm2 : '/' ∉ m)
    (hex : pathExists (materializeAll reps (re.getD defaultExtensions) now es)
      oldModulePath = true)
    (hdst : pathExists (materializeAll reps (re.getD defaultExtensions) now es)
        (str "src/" ++ m) = true →
      memStr (materializeAll reps (re.getD defaultExtensions) now es).dirs
        (str "src/" ++ m) = true) :
    generate_project (some es) none reps re ow now
      = (some (renamePath
          (if pathExists (materializeAll reps (re.getD defaultExtensions) now es)
              (str "src/" ++ m)
           then rmtreeFS (materializeAll reps (re.getD defaultExtensions) now es)
              (str "src/" ++ m)
           else materializeAll reps (re.getD defaultExtensions) now es)
          oldModulePath (str "src/" ++ m)), none)
    ∧ pathExists ((generate_project (some es) none reps re ow now).1.getD emptyFS)
        oldModulePath = false := by
  have hgen : generate_project (some es) none reps re ow now
      = renameStep reps (materializeAll reps (re.getD defaultExtensions) now es) := by
    cases ow <;> rfl
  have hguard := not_under_guard m hm2
  have hstep : renameStep reps (materializeAll reps (re.getD defaultExtensions) now es)
      = (some (renamePath
          (if pathExists (materializeAll reps (re.getD defaultExtensions) now es)
              (str "src/" ++ m)
           then rmtreeFS (materializeAll reps (re.getD defaultExtensions) now es)
              (str "src/" ++ m)
           else materializeAll reps (re.getD defaultExtensions) now es)
          oldModulePath (str "src/" ++ m)), none) := by
    by_cases hnew : pathExists (materializeAll reps (re.getD defaultExtensions) now es)
        (str "src/" ++ m) = true
    · have hkeep := pathExists_rmtree_keep
        (materializeAll reps (re.getD defaultExtensions) now es)
        (str "src/" ++ m) oldModulePath (old_not_under_new m hm1) hex
      simp [renameStep, hm, hex, hguard, hnew, hdst hnew, hkeep]
    · simp [renameStep, hm, hex, hguard, hnew]
  refine ⟨hgen.trans hstep, ?_⟩
  rw [hgen, hstep]
  exact pathExists_renamePath_old m hm1 _

/-- C5 witness: the spec's scenario — a template containing
`src/__MODULE_NAME__/main.py` with the module token resolved to `acme_tool`
yields `src/acme_tool/main.py` and no `src/__MODULE_NAME__` directory. -/
theorem module_placeholder_renamed_witness :
    pathExists
        ((generate_project
          (some [⟨[str "src"], true, [], 0⟩,
                 ⟨[str "src", str "__MODULE_NAME__"], true, [], 0⟩,
                 ⟨[str "src", str "__MODULE_NAME__", str "main.py"], false, str "hello", 7⟩])
          none [(moduleToken, str "acme_tool")] none false 0).1.getD emptyFS)
        oldModulePath = false
    ∧ getFile
        ((generate_project
          (some [⟨[str "src"], true, [], 0⟩,
                 ⟨[str "src", str "__MODULE_NAME__"], true, [], 0⟩,
                 ⟨[str "src", str "__MODULE_NAME__", str "main.py"], false, str "hello", 7⟩])
          none [(moduleToken, str "acme_tool")] none false 0).1.getD emptyFS)
        (str "src/acme_tool/main.py") = some (str "hello", 0)
    ∧ (generate_project
          (some [⟨[str "src"], true, [], 0⟩,
                 ⟨[str "src", str "__MODULE_NAME__"], true, [], 0⟩,
                 ⟨[str "src", str "__MODULE_NAME__", str "main.py"], false, str "hello", 7⟩])
          none [(moduleToken, str "acme_tool")] none false 0).2 = none :=
  ⟨(module_placeholder_renamed
      [⟨[str "src"], true, [], 0⟩,
       ⟨[str "src", str "__MODULE_NAME__"], true, [], 0⟩,
       ⟨[str "src", str "__MODULE_NAME__", str "main.py"], false, str "hello", 7⟩]
      [(moduleToken, str "acme_tool")] none false 0 (str "acme_tool")
      (by decide) (by decide) (by decide) (by decide) (by decide)).2,
   by decide, by decide⟩

end SPG
